import Mathlib

/-!
Shallow embedding of the auto-simple WhatsApp multi-client manager
(pkg/tools/whatsapp.go and pkg/tools/whatsapp_manager.go) and proofs of the
specification claims about it.

Conventions of the embedding:
* Go maps are association lists; a Go nil map is distinguished from an empty
  map by wrapping the list in Option (writing to a nil map is a runtime panic
  in Go, reading from one is fine).
* Machine-level collaborators (the whatsmeow client, the filesystem, the
  sqlite store) are passed in explicitly: connection attempts and media
  downloads are oracles, the filesystem is an association list from file
  names to contents, the clock is an explicit unix-seconds argument.
* Fallible Go functions returning error are modelled with Option String
  (none = nil error) or Except String; functions that can additionally
  panic return a GoResult.
-/

/-- Result of running a Go function that may return normally, return an
error, or panic at runtime. -/
inductive GoResult (α : Type) where
  | ok : α → GoResult α
  | error : String → GoResult α
  | panicked : String → GoResult α
deriving Repr, DecidableEq

/-- Association-list reading of a Go map: first entry with the given key. -/
def goLookup {α : Type} : List (String × α) → String → Option α
  | [], _ => none
  | p :: rest, k => if p.1 = k then some p.2 else goLookup rest k

/-- Association-list writing of a Go map: replace the entry in place if the
key is present, otherwise append a fresh entry. -/
def goInsert {α : Type} : List (String × α) → String → α → List (String × α)
  | [], k, v => [(k, v)]
  | p :: rest, k, v => if p.1 = k then (k, v) :: rest else p :: goInsert rest k v

/-- Two-digit zero padding used by the Go time layout 20060102_150405. -/
def pad2 (n : Nat) : String :=
  if n < 10 then "0" ++ toString n else toString n

/-- Unix seconds rendered in the Go time layout 20060102_150405 (civil
calendar conversion; the embedding fixes the zone to UTC). -/
def fmtTimestamp (sec : Int) : String :=
  let day : Int := Int.ediv sec 86400
  let sod : Nat := (Int.emod sec 86400).toNat
  let z : Int := day + 719468
  let era : Int := Int.ediv z 146097
  let doe : Nat := (z - era * 146097).toNat
  let yoe : Nat := (doe - doe / 1460 + doe / 36524 - doe / 146096) / 365
  let doy : Nat := doe - (365 * yoe + yoe / 4 - yoe / 100)
  let mp : Nat := (5 * doy + 2) / 153
  let d : Nat := doy - (153 * mp + 2) / 5 + 1
  let m : Nat := if mp < 10 then mp + 3 else mp - 9
  let y : Int := (yoe : Int) + era * 400 + (if m ≤ 2 then 1 else 0)
  toString y ++ pad2 m ++ pad2 d ++ "_" ++
    pad2 (sod / 3600) ++ pad2 (sod % 3600 / 60) ++ pad2 (sod % 60)

/-- WhatsApp JID (collaborator type go.mau.fi/whatsmeow/types.JID, restricted
to the user and server parts this program reads). -/
structure JID where
  user : String
  server : String
deriving Repr, DecidableEq

/-- Split a character list at every occurrence of the separator. -/
def splitOnChar (c : Char) : List Char → List (List Char)
  | [] => [[]]
  | x :: xs =>
    let r := splitOnChar c xs
    if x = c then [] :: r
    else
      match r with
      | [] => [[x]]
      | h :: t => (x :: h) :: t

/-- Collaborator types.ParseJID: a bare server, or user at server; anything
with more than one separator is rejected. -/
def parseJID (s : String) : Option JID :=
  match splitOnChar '@' s.data with
  | [server] => some { user := "", server := String.mk server }
  | [user, server] => some { user := String.mk user, server := String.mk server }
  | _ => none

/-- The attachment descriptor (waProto.ImageMessage), restricted to the
fields this program reads; the core treats it as an opaque immutable blob. -/
structure ImageMessage where
  url : String
  mimetype : Option String
  caption : Option String
deriving Repr, DecidableEq

/-- whatsapp.go: HistoryImageInfo — metadata about one historical image,
recorded during history sync without downloading the payload. -/
structure HistoryImageInfo where
  messageID : String
  chatJID : JID
  senderJID : JID
  timestamp : Int
  imageMsg : ImageMessage
  fileName : String
deriving Repr, DecidableEq

/-- One message inside a history-sync conversation: its key ID, its unix
timestamp, and its image payload if it carries one (none models both a
missing image and a non-media message). -/
structure HistoryMessage where
  keyID : String
  messageTimestamp : Int
  imageMessage : Option ImageMessage
deriving Repr, DecidableEq

/-- One conversation of a history sync; messages is none when the Go slice
is nil, and an entry is none when GetMessage returns nil or has no payload. -/
structure Conversation where
  id : String
  messages : Option (List (Option HistoryMessage))
deriving Repr, DecidableEq

/-- The decoded history-sync blob: a list of conversations. -/
structure HistorySync where
  conversations : List Conversation
deriving Repr, DecidableEq

/-- whatsapp.go: WhatsAppDownloader — the per-client media index.
clientInitialized models whether the wrapped client pointer is non-nil;
historyImages is the Go map (none = nil map, as produced by loading the
JSON literal null). -/
structure WhatsAppDownloader where
  clientInitialized : Bool
  historyImages : Option (List (String × HistoryImageInfo))
deriving Repr, DecidableEq

/-- whatsapp.go: NewWhatsAppDownloader — fresh downloader with an empty
(non-nil) metadata map. -/
def NewWhatsAppDownloader (clientInitialized : Bool) : WhatsAppDownloader :=
  { clientInitialized := clientInitialized, historyImages := some [] }

/-- whatsapp.go, processHistorySyncData: the deterministic file name derived
from the message timestamp and the message ID. -/
def historicalFileName (ts : Int) (keyID : String) : String :=
  "historical_" ++ fmtTimestamp ts ++ "_" ++ keyID ++ ".jpg"

/-- whatsapp.go, processHistorySyncData: the HistoryImageInfo built for one
image message (the source sets both Chat and Sender to the conversation
JID). -/
def mkHistoryImageInfo (jid : JID) (m : HistoryMessage) (img : ImageMessage) :
    HistoryImageInfo :=
  { messageID := m.keyID
    chatJID := jid
    senderJID := jid
    timestamp := m.messageTimestamp
    imageMsg := img
    fileName := historicalFileName m.messageTimestamp m.keyID }

/-- One iteration of the inner message loop of processHistorySyncData:
skip nil or non-image messages, otherwise store the metadata under the
message ID. Writing to a nil map is a Go runtime panic, reported in the
second component. -/
def ingestMessage (wd : WhatsAppDownloader) (jid : JID)
    (om : Option HistoryMessage) : WhatsAppDownloader × Option String :=
  match om with
  | none => (wd, none)
  | some m =>
    match m.imageMessage with
    | none => (wd, none)
    | some img =>
      match wd.historyImages with
      | none => (wd, some "assignment to entry in nil map")
      | some tbl =>
        let info := mkHistoryImageInfo jid m img
        ({ wd with historyImages := some (goInsert tbl info.messageID info) },
          none)

/-- The downloader after storing one item in a non-nil metadata table
(the successful branch of ingestMessage). -/
def insertInfo (wd : WhatsAppDownloader) (l : List (String × HistoryImageInfo))
    (info : HistoryImageInfo) : WhatsAppDownloader :=
  { wd with historyImages := some (goInsert l info.messageID info) }

/-- The inner message loop of processHistorySyncData over one conversation. -/
def ingestMessages (wd : WhatsAppDownloader) (jid : JID) :
    List (Option HistoryMessage) → WhatsAppDownloader × Option String
  | [] => (wd, none)
  | om :: rest =>
    match ingestMessage wd jid om with
    | (wd', none) => ingestMessages wd' jid rest
    | (wd', some p) => (wd', some p)

/-- One iteration of the conversation loop of processHistorySyncData: a nil
message slice or an unparseable conversation ID skips the conversation. -/
def ingestConversation (wd : WhatsAppDownloader) (c : Conversation) :
    WhatsAppDownloader × Option String :=
  match c.messages with
  | none => (wd, none)
  | some msgs =>
    match parseJID c.id with
    | none => (wd, none)
    | some jid => ingestMessages wd jid msgs

/-- The conversation loop of processHistorySyncData. -/
def ingestConversations (wd : WhatsAppDownloader) :
    List Conversation → WhatsAppDownloader × Option String
  | [] => (wd, none)
  | c :: rest =>
    match ingestConversation wd c with
    | (wd', none) => ingestConversations wd' rest
    | (wd', some p) => (wd', some p)

/-- whatsapp.go: processHistorySyncData — records image metadata for every
image message of the sync and returns the (never appended to, hence always
empty) list of downloaded files. -/
def processHistorySyncData (wd : WhatsAppDownloader) (hs : HistorySync) :
    WhatsAppDownloader × GoResult (List String) :=
  if wd.clientInitialized = false then
    (wd, GoResult.error "WhatsApp client not initialized")
  else
    match ingestConversations wd hs.conversations with
    | (wd', none) => (wd', GoResult.ok [])
    | (wd', some p) => (wd', GoResult.panicked p)

/-- whatsapp.go: GetHistoricalImageInfo — point lookup (reading a nil Go map
yields not-found). -/
def GetHistoricalImageInfo (wd : WhatsAppDownloader) (messageID : String) :
    Option HistoryImageInfo :=
  match wd.historyImages with
  | none => none
  | some l => goLookup l messageID

/-- whatsapp.go: ListHistoricalImages — snapshot of all stored metadata. -/
def ListHistoricalImages (wd : WhatsAppDownloader) : List HistoryImageInfo :=
  match wd.historyImages with
  | none => []
  | some l => l.map Prod.snd

/-!
JSON snapshot persistence (SaveHistoryMetadata / LoadHistoryMetadata).
The encoding/json collaborator is modelled by a JSON value tree: the blob a
load operation reads is an Option Json, where none stands for bytes that
could not be read or do not parse as JSON at all.
-/

/-- JSON values, restricted to the shapes this snapshot format produces. -/
inductive Json where
  | null : Json
  | str : String → Json
  | num : Int → Json
  | obj : List (String × Json) → Json

/-- The zero value of the attachment descriptor struct. -/
def zeroImageMessage : ImageMessage :=
  { url := "", mimetype := none, caption := none }

/-- The zero value of HistoryImageInfo (what encoding/json leaves behind for
a JSON null or an empty object). -/
def zeroHistoryImageInfo : HistoryImageInfo :=
  { messageID := ""
    chatJID := { user := "", server := "" }
    senderJID := { user := "", server := "" }
    timestamp := 0
    imageMsg := zeroImageMessage
    fileName := "" }

/-- Encode an optional Go string pointer (nil encodes as null). -/
def encodeOptStr : Option String → Json
  | none => Json.null
  | some s => Json.str s

/-- Decode into an optional Go string pointer: a missing or null field is a
nil pointer; a non-string value is a type error. -/
def decodeOptStr : Option Json → Option (Option String)
  | none => some none
  | some Json.null => some none
  | some (Json.str s) => some (some s)
  | some _ => none

/-- Decode a plain string field; encoding/json leaves the zero value for a
missing or null field and rejects other shapes. -/
def decodeStrField (l : List (String × Json)) (k : String) : Option String :=
  match goLookup l k with
  | none => some ""
  | some Json.null => some ""
  | some (Json.str s) => some s
  | some _ => none

/-- Decode an integer field with the same missing/null leniency. -/
def decodeIntField (l : List (String × Json)) (k : String) : Option Int :=
  match goLookup l k with
  | none => some 0
  | some Json.null => some 0
  | some (Json.num n) => some n
  | some _ => none

def encodeJID (j : JID) : Json :=
  Json.obj [("User", Json.str j.user), ("Server", Json.str j.server)]

def decodeJID : Json → Option JID
  | Json.null => some { user := "", server := "" }
  | Json.obj l => do
    let u ← decodeStrField l "User"
    let s ← decodeStrField l "Server"
    some { user := u, server := s }
  | _ => none

def decodeJIDField (l : List (String × Json)) (k : String) : Option JID :=
  match goLookup l k with
  | none => some { user := "", server := "" }
  | some j => decodeJID j

def encodeImageMessage (m : ImageMessage) : Json :=
  Json.obj [("URL", Json.str m.url), ("mimetype", encodeOptStr m.mimetype),
    ("caption", encodeOptStr m.caption)]

def decodeImageMessage : Json → Option ImageMessage
  | Json.null => some zeroImageMessage
  | Json.obj l => do
    let u ← decodeStrField l "URL"
    let mt ← decodeOptStr (goLookup l "mimetype")
    let cap ← decodeOptStr (goLookup l "caption")
    some { url := u, mimetype := mt, caption := cap }
  | _ => none

def decodeImageMessageField (l : List (String × Json)) (k : String) :
    Option ImageMessage :=
  match goLookup l k with
  | none => some zeroImageMessage
  | some j => decodeImageMessage j

/-- JSON encoding of one HistoryImageInfo, field for field. -/
def encodeItem (x : HistoryImageInfo) : Json :=
  Json.obj [("MessageID", Json.str x.messageID),
    ("ChatJID", encodeJID x.chatJID),
    ("SenderJID", encodeJID x.senderJID),
    ("Timestamp", Json.num x.timestamp),
    ("ImageMsg", encodeImageMessage x.imageMsg),
    ("FileName", Json.str x.fileName)]

/-- JSON decoding of one HistoryImageInfo; fails only on a value of the
wrong shape (encoding/json leniency: missing or null fields become zero
values). -/
def decodeItem : Json → Option HistoryImageInfo
  | Json.null => some zeroHistoryImageInfo
  | Json.obj l => do
    let mid ← decodeStrField l "MessageID"
    let cj ← decodeJIDField l "ChatJID"
    let sj ← decodeJIDField l "SenderJID"
    let ts ← decodeIntField l "Timestamp"
    let im ← decodeImageMessageField l "ImageMsg"
    let fn ← decodeStrField l "FileName"
    some { messageID := mid
           chatJID := cj
           senderJID := sj
           timestamp := ts
           imageMsg := im
           fileName := fn }
  | _ => none

/-- json.Marshal of the metadata map: a nil map marshals as null, otherwise
an object with one member per entry. -/
def serializeTable : Option (List (String × HistoryImageInfo)) → Json
  | none => Json.null
  | some l => Json.obj (l.map (fun p => (p.1, encodeItem p.2)))

/-- Decode every member of a JSON object into a table entry. -/
def decodeEntries : List (String × Json) → Option (List (String × HistoryImageInfo))
  | [] => some []
  | (k, j) :: rest => do
    let x ← decodeItem j
    let r ← decodeEntries rest
    some ((k, x) :: r)

/-- json.Unmarshal into map[string]HistoryImageInfo: null leaves the map
nil, an object allocates the map, anything else is a type error. -/
def decodeTable : Json → Option (Option (List (String × HistoryImageInfo)))
  | Json.null => some none
  | Json.obj l => (decodeEntries l).map some
  | _ => none

/-- whatsapp.go: SaveHistoryMetadata — serializes the whole metadata map;
the returned JSON value is the blob written to the snapshot file. -/
def SaveHistoryMetadata (wd : WhatsAppDownloader) : Json :=
  serializeTable wd.historyImages

/-- whatsapp.go: LoadHistoryMetadata — reads a snapshot blob (none models an
unreadable file or bytes that are not JSON) and replaces the whole metadata
map on success; any failure leaves the map untouched and returns an error. -/
def LoadHistoryMetadata (wd : WhatsAppDownloader) (blob : Option Json) :
    WhatsAppDownloader × Option String :=
  match blob with
  | none => (wd, some "failed to read history metadata")
  | some j =>
    match decodeTable j with
    | none => (wd, some "failed to unmarshal history metadata")
    | some t => ({ wd with historyImages := t }, none)

/-!
On-demand fetch (DownloadHistoricalImage and friends). The filesystem is an
association list from file names to byte lists; the collaborator download
operation is an oracle from the attachment descriptor to bytes or an error.
Every result records how many collaborator Download calls were made.
-/

/-- Result of a fetch: the returned path or error, the filesystem after the
call, and the number of collaborator Download calls performed. -/
structure FetchResult where
  path : Except String String
  fs : List (String × List Nat)
  downloadCalls : Nat
deriving Repr

/-- whatsapp.go: DownloadImage — one collaborator Download call unless the
client is not initialized. The second component counts Download calls. -/
def DownloadImage (wd : WhatsAppDownloader)
    (download : ImageMessage → Except String (List Nat))
    (img : ImageMessage) : Except String (List Nat) × Nat :=
  if wd.clientInitialized = false then
    (Except.error "WhatsApp client not initialized", 0)
  else
    match download img with
    | Except.ok data => (Except.ok data, 1)
    | Except.error e => (Except.error ("failed to download image: " ++ e), 1)

/-- whatsapp.go: DownloadHistoricalImage — return the cached file if it
already exists, otherwise download once and write the bytes to the derived
file name. -/
def DownloadHistoricalImage (wd : WhatsAppDownloader)
    (download : ImageMessage → Except String (List Nat))
    (fs : List (String × List Nat)) (imageInfo : HistoryImageInfo) : FetchResult :=
  if wd.clientInitialized = false then
    ⟨Except.error "WhatsApp client not initialized", fs, 0⟩
  else if (goLookup fs imageInfo.fileName).isSome then
    ⟨Except.ok imageInfo.fileName, fs, 0⟩
  else
    match DownloadImage wd download imageInfo.imageMsg with
    | (Except.ok data, n) =>
      ⟨Except.ok imageInfo.fileName, goInsert fs imageInfo.fileName data, n⟩
    | (Except.error e, n) =>
      ⟨Except.error ("failed to download historical image " ++
        imageInfo.messageID ++ ": " ++ e), fs, n⟩

/-- whatsapp.go: DownloadHistoricalImageByMessageID — look the metadata up
by message ID and fetch it. -/
def DownloadHistoricalImageByMessageID (wd : WhatsAppDownloader)
    (download : ImageMessage → Except String (List Nat))
    (fs : List (String × List Nat)) (messageID : String) : FetchResult :=
  match GetHistoricalImageInfo wd messageID with
  | none =>
    ⟨Except.error ("historical image with message ID " ++ messageID ++
      " not found"), fs, 0⟩
  | some info => DownloadHistoricalImage wd download fs info

/-!
The session registry (pkg/tools/whatsapp_manager.go). Connection attempts
against the network are an oracle from phone ID to success; the two event
handler registrations performed by ConnectClient (the downloader's history
sync handler and the connection-state handler) are counted per instance.
-/

/-- whatsapp_manager.go: WhatsAppInstance. storeHasID models whether
Client.Store.ID is non-nil (a persisted identity exists); the two counters
record how many times each EventBridge callback has been registered on the
wrapped client. -/
structure WhatsAppInstance where
  phoneID : String
  database : String
  connected : Bool
  storeHasID : Bool
  historySyncHandlers : Nat
  stateHandlers : Nat
  downloader : WhatsAppDownloader
deriving Repr, DecidableEq

/-- whatsapp_manager.go: WhatsAppManager — the registry of instances keyed
by phone ID plus the storage directory. -/
structure WhatsAppManager where
  instances : List (String × WhatsAppInstance)
  dbDir : String
deriving Repr, DecidableEq

/-- whatsapp_manager.go: NewWhatsAppManager. -/
def NewWhatsAppManager (dbDir : String) : WhatsAppManager :=
  { instances := [], dbDir := if dbDir = "" then "./data" else dbDir }

/-- whatsapp_manager.go: generateDatabaseName — dir/whatsapp_id_ts.db with
the creation timestamp in the 20060102_150405 layout. -/
def generateDatabaseName (dbDir : String) (phoneID : String) (now : Int) : String :=
  dbDir ++ "/whatsapp_" ++ phoneID ++ "_" ++ fmtTimestamp now ++ ".db"

/-- whatsapp_manager.go: AddClient. The sqlite device-store creation and the
device fetch are collaborator steps whose success is passed in (storeOK,
deviceOK), as is whether the fetched device carries a persisted identity.
The registry is only written after every fallible step has succeeded. -/
def AddClient (wm : WhatsAppManager) (phoneID : String) (now : Int)
    (storeOK deviceOK : Bool) (deviceHasID : Bool) :
    WhatsAppManager × Except String WhatsAppInstance :=
  if (goLookup wm.instances phoneID).isSome then
    (wm, Except.error ("client with phoneID " ++ phoneID ++ " already exists"))
  else
    let dbPath := generateDatabaseName wm.dbDir phoneID now
    if storeOK = false then
      (wm, Except.error ("failed to create device store for " ++ phoneID))
    else if deviceOK = false then
      (wm, Except.error ("failed to get device for " ++ phoneID))
    else
      let inst : WhatsAppInstance :=
        { phoneID := phoneID
          database := dbPath
          connected := false
          storeHasID := deviceHasID
          historySyncHandlers := 0
          stateHandlers := 0
          downloader := NewWhatsAppDownloader true }
      ({ wm with instances := wm.instances ++ [(phoneID, inst)] }, Except.ok inst)

/-- whatsapp_manager.go: GetClient. -/
def GetClient (wm : WhatsAppManager) (phoneID : String) :
    Except String WhatsAppInstance :=
  match goLookup wm.instances phoneID with
  | some inst => Except.ok inst
  | none => Except.error ("client with phoneID " ++ phoneID ++ " not found")

/-- Store an updated instance back under its key (the Go code mutates the
shared instance through a pointer; the embedding replaces the entry). -/
def setClient (wm : WhatsAppManager) (phoneID : String)
    (inst : WhatsAppInstance) : WhatsAppManager :=
  { wm with instances :=
      wm.instances.map (fun p => if p.1 = phoneID then (phoneID, inst) else p) }

/-- whatsapp.go: AddHistorySyncHandlers — registers the history-sync
callback on the wrapped client (a no-op when the client is nil). Nothing
guards against repeated registration. -/
def AddHistorySyncHandlersInst (inst : WhatsAppInstance) : WhatsAppInstance :=
  if inst.downloader.clientInitialized = false then inst
  else { inst with historySyncHandlers := inst.historySyncHandlers + 1 }

/-- The events.Connected callback registered by ConnectClient: sets the
connected flag (delivered asynchronously after a successful transport
open). -/
def connectedEvent (inst : WhatsAppInstance) : WhatsAppInstance :=
  { inst with connected := true }

/-- The instance after the two callback registrations ConnectClient
performs before opening the transport. -/
def registeredInst (inst : WhatsAppInstance) : WhatsAppInstance :=
  { AddHistorySyncHandlersInst inst with
      stateHandlers := (AddHistorySyncHandlersInst inst).stateHandlers + 1 }

/-- whatsapp_manager.go: ConnectClient. Looks the instance up, rejects an
already-connected instance, registers the history-sync callback and the
connection-state callback (once more on every call), then opens the
transport; connectOK tells whether the collaborator Connect call succeeds.
On success the asynchronous Connected event sets the flag; on failure the
freshly registered callbacks remain registered. -/
def ConnectClient (connectOK : String → Bool) (wm : WhatsAppManager)
    (phoneID : String) : WhatsAppManager × Option String :=
  match goLookup wm.instances phoneID with
  | none => (wm, some ("client with phoneID " ++ phoneID ++ " not found"))
  | some inst =>
    if inst.connected then
      (wm, some ("client " ++ phoneID ++ " is already connected"))
    else
      let inst1 := AddHistorySyncHandlersInst inst
      let inst2 := { inst1 with stateHandlers := inst1.stateHandlers + 1 }
      if inst2.storeHasID = false then
        if connectOK phoneID then (setClient wm phoneID (connectedEvent inst2), none)
        else (setClient wm phoneID inst2,
          some ("failed to connect client " ++ phoneID ++ " for QR login"))
      else
        if connectOK phoneID then (setClient wm phoneID (connectedEvent inst2), none)
        else (setClient wm phoneID inst2,
          some ("failed to connect existing client " ++ phoneID))

/-- whatsapp_manager.go: DisconnectClient. -/
def DisconnectClient (wm : WhatsAppManager) (phoneID : String) :
    WhatsAppManager × Option String :=
  match goLookup wm.instances phoneID with
  | none => (wm, some ("client with phoneID " ++ phoneID ++ " not found"))
  | some inst =>
    if inst.connected = false then
      (wm, some ("client " ++ phoneID ++ " is not connected"))
    else (setClient wm phoneID { inst with connected := false }, none)

/-- The failure message ConnectClient produces for a given instance when the
collaborator Connect call fails (the QR branch and the reconnect branch word
it differently). -/
def connectFailMsg (inst : WhatsAppInstance) (phoneID : String) : String :=
  if inst.storeHasID = false then
    "failed to connect client " ++ phoneID ++ " for QR login"
  else "failed to connect existing client " ++ phoneID

/-- The error string a failing phone ID contributes to the ConnectAllClients
aggregate, given the registry the loop started from. -/
def connectFailMsgFor (wm : WhatsAppManager) (phoneID : String) : String :=
  "failed to connect client " ++ phoneID ++ ": " ++
    (match goLookup wm.instances phoneID with
     | some inst => connectFailMsg inst phoneID
     | none => "client with phoneID " ++ phoneID ++ " not found")

/-- The fan-out loop of ConnectAllClients: one connect attempt per
snapshotted phone ID (the goroutines touch disjoint instances and their
errors are drained after the join, so the fan-out is embedded as a fold),
collecting one wrapped error per failed attempt. -/
def connectAllLoop (connectOK : String → Bool) :
    WhatsAppManager → List String → WhatsAppManager × List String
  | wm, [] => (wm, [])
  | wm, id :: rest =>
    match ConnectClient connectOK wm id with
    | (wm', none) => connectAllLoop connectOK wm' rest
    | (wm', some e) =>
      ((connectAllLoop connectOK wm' rest).1,
        ("failed to connect client " ++ id ++ ": " ++ e) ::
          (connectAllLoop connectOK wm' rest).2)

/-- whatsapp_manager.go: ConnectAllClients — snapshot the phone IDs, attempt
every connect, and aggregate the collected failures into one error (nil when
none failed). -/
def ConnectAllClients (connectOK : String → Bool) (wm : WhatsAppManager) :
    WhatsAppManager × Option String :=
  let ids := wm.instances.map Prod.fst
  let r := connectAllLoop connectOK wm ids
  (r.1, if r.2.isEmpty then none
    else some ("encountered " ++ toString r.2.length ++
      " errors during connection: " ++ String.intercalate "; " r.2))

/-- Drop an exact pattern from the front of a character list. -/
def dropPre : List Char → List Char → Option (List Char)
  | [], l => some l
  | _, [] => none
  | a :: as, b :: bs => if a = b then dropPre as bs else none

/-- Drop an exact pattern from the back of a character list. -/
def dropSuf (suf l : List Char) : Option (List Char) :=
  (dropPre suf.reverse l.reverse).map List.reverse

/-- The glob pattern dir/whatsapp_*.db used by CleanupDatabases: the name
starts with dir/whatsapp_, ends with .db, and the starred part stays inside
the directory. -/
def matchesDbPattern (dbDir : String) (f : String) : Bool :=
  match dropPre (dbDir ++ "/whatsapp_").data f.data with
  | none => false
  | some rest =>
    match dropSuf (".db").data rest with
    | none => false
    | some mid => mid.all (fun c => c != '/')

/-- The deletion loop of CleanupDatabases: try to remove every matched file
(removeOK tells whether os.Remove succeeds), never aborting, collecting one
error per failed removal. -/
def removeMatchedFiles (removeOK : String → Bool) :
    List String → List String → List String × List String
  | fs, [] => (fs, [])
  | fs, f :: rest =>
    if removeOK f then
      removeMatchedFiles removeOK (fs.filter (fun g => g != f)) rest
    else
      ((removeMatchedFiles removeOK fs rest).1,
        ("failed to remove " ++ f) :: (removeMatchedFiles removeOK fs rest).2)

/-- whatsapp_manager.go: CleanupDatabases — glob every file matching
dir/whatsapp_*.db in the storage directory (fs is the directory contents)
and remove them all, aggregating per-file failures into one error. -/
def CleanupDatabases (wm : WhatsAppManager) (fs : List String)
    (removeOK : String → Bool) : List String × Option String :=
  let files := fs.filter (fun f => matchesDbPattern wm.dbDir f)
  let r := removeMatchedFiles removeOK fs files
  (r.1, if r.2.isEmpty then none
    else some ("encountered " ++ toString r.2.length ++
      " errors during cleanup: " ++ String.intercalate "; " r.2))

/-!
Concrete example values used by the claim theorems, witnesses and
counterexamples.
-/

/-- A concrete attachment descriptor. -/
def exImg : ImageMessage :=
  { url := "https://cdn.example/1", mimetype := some "image/jpeg", caption := none }

/-- A second concrete attachment descriptor. -/
def exImg2 : ImageMessage :=
  { url := "https://cdn.example/2", mimetype := none, caption := some "hello" }

/-- A registry holding the single freshly added session A (storage directory
./data, creation time 0). -/
def exC1Manager : WhatsAppManager :=
  (AddClient (NewWhatsAppManager "./data") "A" 0 true true true).1

/-- The registry after two ConnectClient attempts on session A, both failing
at the collaborator Connect call. -/
def exC1After : WhatsAppManager :=
  (ConnectClient (fun _ => false)
    ((ConnectClient (fun _ => false) exC1Manager "A").1) "A").1

/-- A one-conversation history sync carrying a single image message. -/
def exC9Sync : HistorySync :=
  { conversations := [{ id := "123@g.us"
                        messages := some [some { keyID := "MSG1"
                                                 messageTimestamp := 100
                                                 imageMessage := some exImg }] }] }

/-- The downloader after deserializing the well-formed snapshot null: the
load succeeds and leaves a nil metadata map. -/
def exC9Loaded : WhatsAppDownloader :=
  (LoadHistoryMetadata (NewWhatsAppDownloader true) (some Json.null)).1

/-- The table invariant of the media index: every key equals the messageID
of the item stored under it. -/
def TableInv (l : List (String × HistoryImageInfo)) : Prop :=
  ∀ p ∈ l, p.1 = p.2.messageID

/-- The table invariant lifted to a possibly-nil Go map (a nil map has no
entries, so it satisfies the invariant vacuously). -/
def OptTableInv : Option (List (String × HistoryImageInfo)) → Prop
  | none => True
  | some l => TableInv l

instance : (t : Option (List (String × HistoryImageInfo))) → Decidable (OptTableInv t)
  | none => isTrue trivial
  | some l => decidable_of_iff (∀ p ∈ l, p.1 = p.2.messageID) Iff.rfl

/-- The message IDs of the image-bearing records in one message list. -/
def msgsMediaKeys : List (Option HistoryMessage) → List String
  | [] => []
  | none :: rest => msgsMediaKeys rest
  | some m :: rest =>
    match m.imageMessage with
    | none => msgsMediaKeys rest
    | some _ => m.keyID :: msgsMediaKeys rest

/-- The message IDs of the image-bearing records of one conversation that
processHistorySyncData actually visits (a nil message slice or an
unparseable conversation ID skips the whole conversation). -/
def convMediaKeys (c : Conversation) : List String :=
  match c.messages with
  | none => []
  | some msgs =>
    match parseJID c.id with
    | none => []
    | some _ => msgsMediaKeys msgs

/-- All visited image-bearing message IDs of a history sync. -/
def convsMediaKeys : List Conversation → List String
  | [] => []
  | c :: rest => convMediaKeys c ++ convsMediaKeys rest

/-- All visited image-bearing message IDs of a history sync blob. -/
def syncMediaKeys (hs : HistorySync) : List String :=
  convsMediaKeys hs.conversations

/-- The error strings ConnectAllClients collects: one per phone ID whose
connect attempt fails. -/
def connectFailures (wm : WhatsAppManager) (connectOK : String → Bool) : List String :=
  (wm.instances.map Prod.fst).filterMap
    (fun i => if connectOK i = true then none else some (connectFailMsgFor wm i))

/-- A three-record sync batch: two image messages and one non-media
message in a single conversation. -/
def exC6Sync : HistorySync :=
  { conversations := [{ id := "123@g.us"
                        messages := some
                          [some { keyID := "MA"
                                  messageTimestamp := 100
                                  imageMessage := some exImg },
                           some { keyID := "MB"
                                  messageTimestamp := 200
                                  imageMessage := none },
                           some { keyID := "MC"
                                  messageTimestamp := 300
                                  imageMessage := some exImg2 }] }] }

/-- An item whose messageID is b, for storing under the foreign key a. -/
def exC8Item : HistoryImageInfo :=
  { messageID := "b"
    chatJID := { user := "u", server := "s" }
    senderJID := { user := "u", server := "s" }
    timestamp := 5
    imageMsg := exImg
    fileName := "x.jpg" }

/-- A well-formed snapshot storing exC8Item under the key a. -/
def exC8Json : Json := Json.obj [("a", encodeItem exC8Item)]

/-- A registry holding the single freshly added session A (used for the
cleanup counterexample). -/
def exC3Manager : WhatsAppManager :=
  (AddClient (NewWhatsAppManager "./data") "A" 0 true true true).1

/-- The storage file AddClient generated for session A at creation time 0. -/
def exC3File : String := generateDatabaseName "./data" "A" 0

/-- A metadata item under its own message ID M1. -/
def exC2Item : HistoryImageInfo :=
  { messageID := "M1"
    chatJID := { user := "123", server := "g.us" }
    senderJID := { user := "123", server := "g.us" }
    timestamp := 100
    imageMsg := exImg
    fileName := "f1.jpg" }

/-- A downloader whose index holds exC2Item. -/
def exC2Downloader : WhatsAppDownloader :=
  { clientInitialized := true, historyImages := some [("M1", exC2Item)] }

/-- A registry holding two freshly added disconnected sessions A and B. -/
def exC7Manager : WhatsAppManager :=
  (AddClient (AddClient (NewWhatsAppManager "./data") "A" 0 true true true).1
    "B" 0 true true true).1

/-- A connect oracle under which session A connects and session B fails. -/
def exC7OK (i : String) : Bool := i == "A"

/-!
Helper lemmas about the association-list embedding of Go maps.
-/

/-- Looking up after an insert: the inserted key hits the new value, every
other key is untouched. -/
theorem goLookup_goInsert {α : Type} (l : List (String × α)) (k : String)
    (v : α) (k' : String) :
    goLookup (goInsert l k v) k' = if k = k' then some v else goLookup l k' := by
  induction l with
  | nil => simp [goInsert, goLookup]
  | cons p rest ih =>
    simp only [goInsert]
    split_ifs with h1 h2 h3
    · simp [goLookup, h2]
    · have hpk' : ¬ p.1 = k' := by rw [h1]; exact h2
      simp [goLookup, h2, hpk']
    · subst h3
      simp [goLookup, h1, ih]
    · by_cases hpk' : p.1 = k' <;> simp [goLookup, hpk', ih, h3]

/-- A key present in the key list of an association list looks up to some
value whose entry is in the list. -/
theorem goLookup_of_mem_keys {α : Type} (l : List (String × α)) (id : String)
    (h : id ∈ l.map Prod.fst) :
    ∃ v, goLookup l id = some v ∧ (id, v) ∈ l := by
  induction l with
  | nil => simp at h
  | cons p rest ih =>
    by_cases hp : p.1 = id
    · cases p with
      | mk a b =>
        subst hp
        exact ⟨b, by simp [goLookup], List.mem_cons_self _ _⟩
    · have h' : id ∈ rest.map Prod.fst := by
        rcases List.mem_map.mp h with ⟨q, hq, hqid⟩
        rcases List.mem_cons.mp hq with rfl | hq'
        · exact absurd hqid hp
        · exact List.mem_map.mpr ⟨q, hq', hqid⟩
      rcases ih h' with ⟨v, hv, hm⟩
      exact ⟨v, by simp [goLookup, hp, hv], List.mem_cons_of_mem _ hm⟩

/-- Replacing the entry under a key present in the list makes lookups of
that key return the new value. -/
theorem goLookup_setEntries_same {α : Type} (l : List (String × α))
    (k : String) (v : α) (h : (goLookup l k).isSome = true) :
    goLookup (l.map (fun p => if p.1 = k then (k, v) else p)) k = some v := by
  induction l with
  | nil => simp [goLookup] at h
  | cons p rest ih =>
    by_cases hp : p.1 = k
    · simp [goLookup, hp]
    · have h' : (goLookup rest k).isSome = true := by
        simpa [goLookup, hp] using h
      simp [goLookup, hp, ih h']

/-- Replacing the entry under one key leaves lookups of any other key
untouched. -/
theorem goLookup_setEntries_ne {α : Type} (l : List (String × α))
    (k j : String) (v : α) (h : ¬ j = k) :
    goLookup (l.map (fun p => if p.1 = k then (k, v) else p)) j = goLookup l j := by
  induction l with
  | nil => simp [goLookup]
  | cons p rest ih =>
    by_cases hp : p.1 = k
    · have hkj : ¬ k = j := fun hh => h hh.symm
      have hpj : ¬ p.1 = j := by rw [hp]; exact hkj
      simp [goLookup, hp, hkj, hpj, ih]
    · by_cases hpj : p.1 = j <;> simp [goLookup, hp, hpj, h, ih]

/-- Inserting an item under its own message ID preserves the table
invariant. -/
theorem tableInv_goInsert (l : List (String × HistoryImageInfo))
    (v : HistoryImageInfo) (h : TableInv l) :
    TableInv (goInsert l v.messageID v) := by
  induction l with
  | nil =>
    intro p hp
    simp [goInsert] at hp
    subst hp
    rfl
  | cons q rest ih =>
    intro p hp
    by_cases hq : q.1 = v.messageID
    · simp [goInsert, hq] at hp
      rcases hp with rfl | hp
      · rfl
      · exact h p (List.mem_cons_of_mem _ hp)
    · simp [goInsert, hq] at hp
      rcases hp with rfl | hp
      · exact h p (List.mem_cons_self _ _)
      · exact ih (fun r hr => h r (List.mem_cons_of_mem _ hr)) p hp

/-!
Round-trip lemmas for the JSON snapshot encoding.
-/

/-- Decoding an encoded attachment descriptor recovers it exactly. -/
theorem decodeImageMessage_encodeImageMessage (m : ImageMessage) :
    decodeImageMessage (encodeImageMessage m) = some m := by
  cases m with
  | mk url mt cap => cases mt <;> cases cap <;> rfl

/-- Decoding an encoded metadata item recovers it exactly. -/
theorem decodeItem_encodeItem (x : HistoryImageInfo) :
    decodeItem (encodeItem x) = some x := by
  cases x with
  | mk mid cj sj ts im fn =>
    cases im with
    | mk url mt cap => cases mt <;> cases cap <;> rfl

/-- Decoding the encoded members of a table recovers every entry exactly. -/
theorem decodeEntries_encode (l : List (String × HistoryImageInfo)) :
    decodeEntries (l.map (fun p => (p.1, encodeItem p.2))) = some l := by
  induction l with
  | nil => rfl
  | cons p rest ih => simp [decodeEntries, decodeItem_encodeItem, ih]

/-- Deserializing a serialized table recovers it exactly (a nil map round
trips through the JSON literal null). -/
theorem decodeTable_serializeTable (t : Option (List (String × HistoryImageInfo))) :
    decodeTable (serializeTable t) = some t := by
  cases t with
  | none => rfl
  | some l => simp [serializeTable, decodeTable, decodeEntries_encode]

/-- LoadHistoryMetadata of a SaveHistoryMetadata blob restores exactly the
saved table, whatever the loading downloader held before. -/
theorem load_save_roundtrip (wd2 wd : WhatsAppDownloader) :
    (LoadHistoryMetadata wd2 (some (SaveHistoryMetadata wd))).2 = none ∧
    (LoadHistoryMetadata wd2 (some (SaveHistoryMetadata wd))).1.historyImages =
      wd.historyImages := by
  simp [LoadHistoryMetadata, SaveHistoryMetadata, decodeTable_serializeTable]

/-!
Behaviour of the history-sync ingestion loops.
-/

/-- On a nil metadata map the ingestion loop never changes the downloader
(it either skips records or stops at the nil-map panic). -/
theorem ingestMessages_nil_map (jid : JID) (msgs : List (Option HistoryMessage)) :
    ∀ wd : WhatsAppDownloader, wd.historyImages = none →
    (ingestMessages wd jid msgs).1 = wd := by
  induction msgs with
  | nil => intro wd _; rfl
  | cons om rest ih =>
    intro wd h
    cases om with
    | none => exact ih wd h
    | some m =>
      cases him : m.imageMessage with
      | none =>
        simp only [ingestMessages, ingestMessage, him]
        exact ih wd h
      | some img => simp only [ingestMessages, ingestMessage, him, h]

/-- On a nil metadata map one conversation never changes the downloader. -/
theorem ingestConversation_nil_map (c : Conversation) (wd : WhatsAppDownloader)
    (h : wd.historyImages = none) : (ingestConversation wd c).1 = wd := by
  unfold ingestConversation
  cases c.messages with
  | none => rfl
  | some msgs =>
    cases parseJID c.id with
    | none => rfl
    | some jid => exact ingestMessages_nil_map jid msgs wd h

/-- On a nil metadata map the conversation loop never changes the
downloader. -/
theorem ingestConversations_nil_map (cs : List Conversation) :
    ∀ wd : WhatsAppDownloader, wd.historyImages = none →
    (ingestConversations wd cs).1 = wd := by
  induction cs with
  | nil => intro wd _; rfl
  | cons c rest ih =>
    intro wd h
    have hc := ingestConversation_nil_map c wd h
    rcases hr : ingestConversation wd c with ⟨wd', e⟩
    have hwd' : wd' = wd := by rw [← hc, hr]
    cases e with
    | none =>
      simp only [ingestConversations, hr]
      exact hwd' ▸ ih wd' (hwd' ▸ h)
    | some p => simp only [ingestConversations, hr]; exact hwd'

/-- The inner ingestion loop on a non-nil map: never panics, never touches
the client, and produces a table that agrees with the old one outside the
batch's media message IDs, has an entry for every media message ID, and
keeps the key-equals-messageID invariant. -/
theorem ingestMessages_spec (jid : JID) (msgs : List (Option HistoryMessage)) :
    ∀ (wd : WhatsAppDownloader) (l : List (String × HistoryImageInfo)),
    wd.historyImages = some l →
    (ingestMessages wd jid msgs).2 = none ∧
    (ingestMessages wd jid msgs).1.clientInitialized = wd.clientInitialized ∧
    ∃ l', (ingestMessages wd jid msgs).1.historyImages = some l' ∧
      (∀ k, k ∉ msgsMediaKeys msgs → goLookup l' k = goLookup l k) ∧
      (∀ k, k ∈ msgsMediaKeys msgs → (goLookup l' k).isSome = true) ∧
      (TableInv l → TableInv l') := by
  induction msgs with
  | nil =>
    intro wd l h
    exact ⟨rfl, rfl, l, h, fun _ _ => rfl,
      fun k hk => absurd hk (by simp [msgsMediaKeys]), id⟩
  | cons om rest ih =>
    intro wd l h
    cases om with
    | none => exact ih wd l h
    | some m =>
      cases him : m.imageMessage with
      | none =>
        have hred : ingestMessages wd jid (some m :: rest) =
            ingestMessages wd jid rest := by
          simp only [ingestMessages, ingestMessage, him]
        have hkeys : msgsMediaKeys (some m :: rest) = msgsMediaKeys rest := by
          simp only [msgsMediaKeys, him]
        rw [hred, hkeys]
        exact ih wd l h
      | some img =>
        have hred : ingestMessages wd jid (some m :: rest) =
            ingestMessages (insertInfo wd l (mkHistoryImageInfo jid m img))
              jid rest := by
          simp only [ingestMessages, ingestMessage, him, h, insertInfo]
        have hkeys : msgsMediaKeys (some m :: rest) =
            m.keyID :: msgsMediaKeys rest := by
          simp only [msgsMediaKeys, him]
        rcases ih (insertInfo wd l (mkHistoryImageInfo jid m img))
            (goInsert l (mkHistoryImageInfo jid m img).messageID
              (mkHistoryImageInfo jid m img)) rfl with
          ⟨h1, h2, l', hl', hframe, hmem, hinv⟩
        rw [hred, hkeys]
        refine ⟨h1, h2, l', hl', ?_, ?_, ?_⟩
        · intro k hk
          have hkne : ¬ m.keyID = k := by
            intro hkk
            exact hk (hkk ▸ List.mem_cons_self _ _)
          have hkrest : k ∉ msgsMediaKeys rest := by
            intro hkk
            exact hk (List.mem_cons_of_mem _ hkk)
          rw [hframe k hkrest, goLookup_goInsert]
          exact if_neg hkne
        · intro k hk
          by_cases hkrest : k ∈ msgsMediaKeys rest
          · exact hmem k hkrest
          · rcases List.mem_cons.mp hk with hkk | hkk
            · subst hkk
              rw [hframe _ hkrest]
              simp [goLookup_goInsert, mkHistoryImageInfo]
            · exact absurd hkk hkrest
        · intro hInvL
          exact hinv (tableInv_goInsert l (mkHistoryImageInfo jid m img) hInvL)

/-- One conversation of the ingestion loop satisfies the same contract with
its own media keys. -/
theorem ingestConversation_spec (c : Conversation) (wd : WhatsAppDownloader)
    (l : List (String × HistoryImageInfo)) (h : wd.historyImages = some l) :
    (ingestConversation wd c).2 = none ∧
    (ingestConversation wd c).1.clientInitialized = wd.clientInitialized ∧
    ∃ l', (ingestConversation wd c).1.historyImages = some l' ∧
      (∀ k, k ∉ convMediaKeys c → goLookup l' k = goLookup l k) ∧
      (∀ k, k ∈ convMediaKeys c → (goLookup l' k).isSome = true) ∧
      (TableInv l → TableInv l') := by
  rcases hmsg : c.messages with _ | msgs
  · simp only [ingestConversation, convMediaKeys, hmsg]
    exact ⟨trivial, trivial, l, h, fun _ _ => rfl,
      fun k hk => absurd hk (List.not_mem_nil _), id⟩
  · rcases hjid : parseJID c.id with _ | jid
    · simp only [ingestConversation, convMediaKeys, hmsg, hjid]
      exact ⟨trivial, trivial, l, h, fun _ _ => rfl,
        fun k hk => absurd hk (List.not_mem_nil _), id⟩
    · simp only [ingestConversation, convMediaKeys, hmsg, hjid]
      exact ingestMessages_spec jid msgs wd l h

/-- The conversation loop of the ingestion satisfies the same contract with
the concatenated media keys. -/
theorem ingestConversations_spec (cs : List Conversation) :
    ∀ (wd : WhatsAppDownloader) (l : List (String × HistoryImageInfo)),
    wd.historyImages = some l →
    (ingestConversations wd cs).2 = none ∧
    (ingestConversations wd cs).1.clientInitialized = wd.clientInitialized ∧
    ∃ l', (ingestConversations wd cs).1.historyImages = some l' ∧
      (∀ k, k ∉ convsMediaKeys cs → goLookup l' k = goLookup l k) ∧
      (∀ k, k ∈ convsMediaKeys cs → (goLookup l' k).isSome = true) ∧
      (TableInv l → TableInv l') := by
  induction cs with
  | nil =>
    intro wd l h
    exact ⟨rfl, rfl, l, h, fun _ _ => rfl,
      fun k hk => absurd hk (List.not_mem_nil _), id⟩
  | cons c rest ih =>
    intro wd l h
    rcases ingestConversation_spec c wd l h with
      ⟨hc2, hcCI, lm, hlm, frameC, memC, invC⟩
    rcases hr : ingestConversation wd c with ⟨wd1, e⟩
    rw [hr] at hc2 hcCI hlm
    have he : e = none := hc2
    subst he
    have hred : ingestConversations wd (c :: rest) =
        ingestConversations wd1 rest := by
      simp only [ingestConversations, hr]
    have hCI1 : wd1.clientInitialized = wd.clientInitialized := hcCI
    have hlm1 : wd1.historyImages = some lm := hlm
    rcases ih wd1 lm hlm1 with ⟨h1, h2, l', hl', frameR, memR, invR⟩
    rw [hred]
    simp only [convsMediaKeys]
    refine ⟨h1, h2.trans hCI1, l', hl', ?_, ?_, fun hInv => invR (invC hInv)⟩
    · intro k hk
      rw [List.mem_append] at hk
      push_neg at hk
      rw [frameR k hk.2, frameC k hk.1]
    · intro k hk
      rcases List.mem_append.mp hk with hk1 | hk2
      · by_cases hk2 : k ∈ convsMediaKeys rest
        · exact memR k hk2
        · rw [frameR k hk2]
          exact memC k hk1
      · exact memR k hk2

/-- processHistorySyncData on an initialized client and a non-nil table:
returns the empty downloaded-files list, records an entry for every media
message ID of the sync, changes nothing else in the table, and preserves
the key-equals-messageID invariant. -/
theorem processHistorySyncData_spec (wd : WhatsAppDownloader)
    (l : List (String × HistoryImageInfo)) (hs : HistorySync)
    (hc : wd.clientInitialized = true) (h : wd.historyImages = some l) :
    (processHistorySyncData wd hs).2 = GoResult.ok [] ∧
    ∃ l', (processHistorySyncData wd hs).1.historyImages = some l' ∧
      (∀ k, k ∉ syncMediaKeys hs → goLookup l' k = goLookup l k) ∧
      (∀ k, k ∈ syncMediaKeys hs → (goLookup l' k).isSome = true) ∧
      (TableInv l → TableInv l') := by
  rcases ingestConversations_spec hs.conversations wd l h with
    ⟨h2, _, l', hl', frame, mem, inv⟩
  rcases hr : ingestConversations wd hs.conversations with ⟨wd1, e⟩
  rw [hr] at h2 hl'
  have he : e = none := h2
  subst he
  have hred : processHistorySyncData wd hs = (wd1, GoResult.ok []) := by
    simp only [processHistorySyncData, hc, hr]
    simp
  rw [hred]
  exact ⟨rfl, l', hl', frame, mem, inv⟩

/-!
Claim theorems.
-/

/-- Claim C1: across any sequence of ConnectSession calls on one handle the
EventBridge callbacks are registered at most once. The code has no guard:
ConnectClient registers both callbacks on every call, so after a second
connect attempt on the same handle (here two attempts whose transport open
fails, a sequence the claim explicitly covers) each callback is registered
twice, not at most once. This theorem evaluates the code at that failing
input. -/
theorem c1_handlers_registered_twice :
    (goLookup exC1After.instances "A").map
      (fun i => (i.historySyncHandlers, i.stateHandlers)) = some (2, 2) := by
  decide

/-- Claim C9: no reachable operation sequence panics. The code violates
this: deserializing the well-formed snapshot null succeeds and replaces the
metadata map by a nil map, and the next history-sync ingestion assigns into
that nil map, which is a Go runtime panic (assignment to entry in nil map)
instead of a returned error. -/
theorem c9_nil_map_ingest_panics :
    (LoadHistoryMetadata (NewWhatsAppDownloader true) (some Json.null)).2 = none ∧
    exC9Loaded.historyImages = none ∧
    (processHistorySyncData exC9Loaded exC9Sync).2 =
      GoResult.panicked "assignment to entry in nil map" := by
  refine ⟨rfl, rfl, ?_⟩
  decide

/-- Claim C2: for a messageID present in the index, a fetch whose derived
file already exists returns that path with zero collaborator Download
calls; a fetch whose derived file is absent performs exactly one Download
call and, when the collaborator succeeds, writes the bytes to the derived
file name and returns that path, which is then readable. -/
theorem c2_fetch_cache (wd : WhatsAppDownloader)
    (download : ImageMessage → Except String (List Nat))
    (fs : List (String × List Nat)) (messageID : String)
    (info : HistoryImageInfo) (hc : wd.clientInitialized = true)
    (hinfo : GetHistoricalImageInfo wd messageID = some info) :
    ((goLookup fs info.fileName).isSome = true →
      DownloadHistoricalImageByMessageID wd download fs messageID =
        ⟨Except.ok info.fileName, fs, 0⟩) ∧
    ((goLookup fs info.fileName).isSome = false →
      (DownloadHistoricalImageByMessageID wd download fs messageID).downloadCalls = 1 ∧
      ∀ data, download info.imageMsg = Except.ok data →
        DownloadHistoricalImageByMessageID wd download fs messageID =
          ⟨Except.ok info.fileName, goInsert fs info.fileName data, 1⟩ ∧
        (goLookup (goInsert fs info.fileName data) info.fileName).isSome = true) := by
  constructor
  · intro hhit
    simp [DownloadHistoricalImageByMessageID, hinfo, DownloadHistoricalImage,
      hc, hhit]
  · intro hmiss
    constructor
    · cases hdl : download info.imageMsg <;>
        simp [DownloadHistoricalImageByMessageID, hinfo,
          DownloadHistoricalImage, hc, hmiss, DownloadImage, hdl]
    · intro data hdata
      refine ⟨?_, ?_⟩
      · simp [DownloadHistoricalImageByMessageID, hinfo,
          DownloadHistoricalImage, hc, hmiss, DownloadImage, hdata]
      · rw [goLookup_goInsert]
        simp

/-- Witness for C2 at a concrete index, empty filesystem and concrete
collaborator. -/
theorem c2_fetch_cache_witness :
    ((goLookup ([] : List (String × List Nat)) exC2Item.fileName).isSome = true →
      DownloadHistoricalImageByMessageID exC2Downloader
        (fun _ => Except.ok [7]) [] "M1" = ⟨Except.ok exC2Item.fileName, [], 0⟩) ∧
    ((goLookup ([] : List (String × List Nat)) exC2Item.fileName).isSome = false →
      (DownloadHistoricalImageByMessageID exC2Downloader
        (fun _ => Except.ok [7]) [] "M1").downloadCalls = 1 ∧
      ∀ data, (fun (_ : ImageMessage) => Except.ok (ε := String) [7])
          exC2Item.imageMsg = Except.ok data →
        DownloadHistoricalImageByMessageID exC2Downloader
          (fun _ => Except.ok [7]) [] "M1" =
          ⟨Except.ok exC2Item.fileName, goInsert [] exC2Item.fileName data, 1⟩ ∧
        (goLookup (goInsert [] exC2Item.fileName data)
          exC2Item.fileName).isSome = true) :=
  c2_fetch_cache exC2Downloader (fun _ => Except.ok [7]) [] "M1" exC2Item rfl rfl

/-- Claim C4: serializing a populated index and deserializing the blob
restores exactly the same table — the same set of messageIDs with
identical field values (here: the very same association list). -/
theorem c4_serialize_roundtrip (wd wd2 : WhatsAppDownloader)
    (l : List (String × HistoryImageInfo)) (h1 : wd.historyImages = some l)
    (h2 : l ≠ []) :
    (LoadHistoryMetadata wd2 (some (SaveHistoryMetadata wd))).2 = none ∧
    (LoadHistoryMetadata wd2 (some (SaveHistoryMetadata wd))).1.historyImages =
      some l := by
  rcases load_save_roundtrip wd2 wd with ⟨ha, hb⟩
  exact ⟨ha, by rw [hb, h1]⟩

/-- Witness for C4 at a one-entry index. -/
theorem c4_serialize_roundtrip_witness :
    (LoadHistoryMetadata (NewWhatsAppDownloader true)
      (some (SaveHistoryMetadata exC2Downloader))).2 = none ∧
    (LoadHistoryMetadata (NewWhatsAppDownloader true)
      (some (SaveHistoryMetadata exC2Downloader))).1.historyImages =
      some [("M1", exC2Item)] :=
  c4_serialize_roundtrip exC2Downloader (NewWhatsAppDownloader true)
    [("M1", exC2Item)] rfl (by decide)

/-- Claim C5: deserializing malformed input (unreadable or unparseable
bytes, or a JSON value of the wrong shape) returns an error and leaves the
in-memory table exactly as it was. -/
theorem c5_corrupt_snapshot_preserves_table (wd : WhatsAppDownloader)
    (blob : Option Json)
    (h : blob = none ∨ ∃ j, blob = some j ∧ decodeTable j = none) :
    (LoadHistoryMetadata wd blob).1 = wd ∧
    ∃ e, (LoadHistoryMetadata wd blob).2 = some e := by
  rcases h with rfl | ⟨j, rfl, hj⟩
  · exact ⟨rfl, _, rfl⟩
  · simp [LoadHistoryMetadata, hj]

/-- Witness for C5 at the malformed snapshot 3 (a JSON number where an
object or null is required). -/
theorem c5_corrupt_snapshot_preserves_table_witness :
    (LoadHistoryMetadata (NewWhatsAppDownloader true) (some (Json.num 3))).1 =
      NewWhatsAppDownloader true ∧
    ∃ e, (LoadHistoryMetadata (NewWhatsAppDownloader true)
      (some (Json.num 3))).2 = some e :=
  c5_corrupt_snapshot_preserves_table (NewWhatsAppDownloader true)
    (some (Json.num 3)) (Or.inr ⟨Json.num 3, rfl, rfl⟩)

/-- Claim C6 (amended): ingestion records an entry for exactly the media
records of the batch, leaves the index otherwise unchanged, and returns the
always-empty downloaded-files list rather than the count of recorded
items. -/
theorem c6_ingest_media_only (wd : WhatsAppDownloader)
    (l : List (String × HistoryImageInfo)) (hs : HistorySync)
    (hc : wd.clientInitialized = true) (ht : wd.historyImages = some l) :
    (processHistorySyncData wd hs).2 = GoResult.ok [] ∧
    ∃ l', (processHistorySyncData wd hs).1.historyImages = some l' ∧
      (∀ k, k ∉ syncMediaKeys hs → goLookup l' k = goLookup l k) ∧
      (∀ k, k ∈ syncMediaKeys hs → (goLookup l' k).isSome = true) := by
  rcases processHistorySyncData_spec wd l hs hc ht with ⟨h1, l', hl', frame, mem, _⟩
  exact ⟨h1, l', hl', frame, mem⟩

/-- Witness for C6 at the three-record batch (two media records, one
non-media record) on a fresh empty index. -/
theorem c6_ingest_media_only_witness :
    (processHistorySyncData (NewWhatsAppDownloader true) exC6Sync).2 =
      GoResult.ok [] ∧
    ∃ l', (processHistorySyncData (NewWhatsAppDownloader true)
        exC6Sync).1.historyImages = some l' ∧
      (∀ k, k ∉ syncMediaKeys exC6Sync →
        goLookup l' k = goLookup ([] : List (String × HistoryImageInfo)) k) ∧
      (∀ k, k ∈ syncMediaKeys exC6Sync → (goLookup l' k).isSome = true) :=
  c6_ingest_media_only (NewWhatsAppDownloader true) [] exC6Sync rfl rfl

/-- Counterexample for C6 as stated: on the three-record batch with two
media records the code records 2 items (List returns exactly 2) but the
value it returns is the always-empty downloaded-files list, not the count
2. -/
theorem c6_returns_empty_not_count :
    (processHistorySyncData (NewWhatsAppDownloader true) exC6Sync).2 =
      GoResult.ok [] ∧
    (ListHistoricalImages
      (processHistorySyncData (NewWhatsAppDownloader true) exC6Sync).1).length = 2 := by
  refine ⟨?_, ?_⟩ <;> decide

/-- Claim C8 (amended): the key-equals-messageID invariant is preserved by
ingestion from sync batches and by a serialize/deserialize round trip; it
is not validated by Deserialize on arbitrary well-formed snapshots (see the
counterexample). -/
theorem c8_invariant_ingest_and_roundtrip (wd : WhatsAppDownloader)
    (hs : HistorySync) (wd2 : WhatsAppDownloader)
    (h : OptTableInv wd.historyImages) :
    OptTableInv ((processHistorySyncData wd hs).1.historyImages) ∧
    OptTableInv ((LoadHistoryMetadata wd2
      (some (SaveHistoryMetadata wd))).1.historyImages) := by
  constructor
  · rcases htbl : wd.historyImages with _ | l
    · by_cases hc : wd.clientInitialized = false
      · simp [processHistorySyncData, hc, htbl, OptTableInv]
      · have hnil := ingestConversations_nil_map hs.conversations wd htbl
        rcases hr : ingestConversations wd hs.conversations with ⟨wd1, e⟩
        have hwd1 : wd1 = wd := by rw [← hnil, hr]
        cases e with
        | none =>
          simp only [processHistorySyncData, hr, if_neg hc]
          rw [hwd1, htbl]
          exact trivial
        | some p =>
          simp only [processHistorySyncData, hr, if_neg hc]
          rw [hwd1, htbl]
          exact trivial
    · by_cases hc : wd.clientInitialized = true
      · rcases processHistorySyncData_spec wd l hs hc htbl with
          ⟨_, l', hl', _, _, hinv⟩
        rw [hl']
        have hl : TableInv l := by rw [htbl] at h; exact h
        exact hinv hl
      · have hcf : wd.clientInitialized = false := by
          simpa using hc
        simp only [processHistorySyncData, if_pos hcf]
        exact h
  · rw [(load_save_roundtrip wd2 wd).2]
    exact h

/-- Witness for C8 at a one-entry invariant-respecting index and the
three-record batch. -/
theorem c8_invariant_ingest_and_roundtrip_witness :
    OptTableInv ((processHistorySyncData exC2Downloader
      exC6Sync).1.historyImages) ∧
    OptTableInv ((LoadHistoryMetadata (NewWhatsAppDownloader true)
      (some (SaveHistoryMetadata exC2Downloader))).1.historyImages) :=
  c8_invariant_ingest_and_roundtrip exC2Downloader exC6Sync
    (NewWhatsAppDownloader true) (by decide)

/-- Counterexample for C8 as stated: deserializing the well-formed snapshot
storing an item with messageID b under the key a succeeds and produces a
reachable table that violates the key-equals-messageID invariant. -/
theorem c8_deserialize_breaks_invariant :
    (LoadHistoryMetadata (NewWhatsAppDownloader true) (some exC8Json)).2 = none ∧
    (LoadHistoryMetadata (NewWhatsAppDownloader true)
      (some exC8Json)).1.historyImages = some [("a", exC8Item)] ∧
    ¬ OptTableInv ((LoadHistoryMetadata (NewWhatsAppDownloader true)
      (some exC8Json)).1.historyImages) := by
  refine ⟨rfl, rfl, ?_⟩
  decide

/-- Membership in the filesystem after the cleanup deletion loop: a file
survives iff it was there before and is not a successfully removed member
of the matched list. -/
theorem removeMatchedFiles_mem (removeOK : String → Bool) :
    ∀ (files fs : List String) (f : String),
    f ∈ (removeMatchedFiles removeOK fs files).1 ↔
      f ∈ fs ∧ (f ∈ files → removeOK f = false) := by
  intro files
  induction files with
  | nil => intro fs f; simp [removeMatchedFiles]
  | cons g rest ih =>
    intro fs f
    by_cases hg : removeOK g = true
    · rw [show removeMatchedFiles removeOK fs (g :: rest) =
          removeMatchedFiles removeOK (fs.filter (fun x => x != g)) rest from
          by simp [removeMatchedFiles, hg]]
      rw [ih]
      constructor
      · rintro ⟨hf, hrest⟩
        rcases List.mem_filter.mp hf with ⟨hfs, hne⟩
        refine ⟨hfs, ?_⟩
        intro hmem
        rcases List.mem_cons.mp hmem with rfl | hmem'
        · exact absurd hne (by simp)
        · exact hrest hmem'
      · rintro ⟨hfs, hall⟩
        by_cases hfg : f = g
        · subst hfg
          rw [hall (List.mem_cons_self _ _)] at hg
          exact absurd hg (by simp)
        · exact ⟨List.mem_filter.mpr ⟨hfs, by simpa using hfg⟩,
            fun hm => hall (List.mem_cons_of_mem _ hm)⟩
    · have hg' : removeOK g = false := by simpa using hg
      rw [show removeMatchedFiles removeOK fs (g :: rest) =
          ((removeMatchedFiles removeOK fs rest).1,
            ("failed to remove " ++ g) ::
              (removeMatchedFiles removeOK fs rest).2) from
          by simp [removeMatchedFiles, hg']]
      rw [ih]
      constructor
      · rintro ⟨hfs, hrest⟩
        refine ⟨hfs, fun hmem => ?_⟩
        rcases List.mem_cons.mp hmem with rfl | hmem'
        · exact hg'
        · exact hrest hmem'
      · rintro ⟨hfs, hall⟩
        exact ⟨hfs, fun hm => hall (List.mem_cons_of_mem _ hm)⟩

/-- The errors the cleanup deletion loop collects: exactly one per matched
file whose removal failed, in order. -/
theorem removeMatchedFiles_errs (removeOK : String → Bool) :
    ∀ (files fs : List String),
    (removeMatchedFiles removeOK fs files).2 =
      (files.filter (fun f => !removeOK f)).map
        (fun f => "failed to remove " ++ f) := by
  intro files
  induction files with
  | nil => intro fs; simp [removeMatchedFiles]
  | cons g rest ih =>
    intro fs
    by_cases hg : removeOK g = true
    · simp [removeMatchedFiles, hg, ih]
    · have hg' : removeOK g = false := by simpa using hg
      simp [removeMatchedFiles, hg', ih]

/-- Claim C3 (amended): CleanupStorage removes every file in the storage
directory that matches the registry naming convention — including files
attached to live session entries — and aggregates per-file deletion
failures into a single error without aborting the remaining deletions: a
file survives iff it does not match the pattern or its removal failed, and
the returned error is nil iff every matched removal succeeded. -/
theorem c3_cleanup_removes_all_matching (wm : WhatsAppManager)
    (fs : List String) (removeOK : String → Bool) :
    (∀ f, f ∈ (CleanupDatabases wm fs removeOK).1 ↔
      f ∈ fs ∧ ¬(matchesDbPattern wm.dbDir f = true ∧ removeOK f = true)) ∧
    ((CleanupDatabases wm fs removeOK).2 = none ↔
      ∀ f ∈ fs, matchesDbPattern wm.dbDir f = true → removeOK f = true) := by
  constructor
  · intro f
    show f ∈ (removeMatchedFiles removeOK fs
      (fs.filter (fun g => matchesDbPattern wm.dbDir g))).1 ↔ _
    rw [removeMatchedFiles_mem]
    constructor
    · rintro ⟨hfs, himp⟩
      refine ⟨hfs, ?_⟩
      rintro ⟨hmatch, hok⟩
      have hmem : f ∈ fs.filter (fun g => matchesDbPattern wm.dbDir g) :=
        List.mem_filter.mpr ⟨hfs, hmatch⟩
      rw [himp hmem] at hok
      exact Bool.noConfusion hok
    · rintro ⟨hfs, hnot⟩
      refine ⟨hfs, fun hmem => ?_⟩
      have hmatch := (List.mem_filter.mp hmem).2
      by_cases hok : removeOK f = true
      · exact absurd ⟨hmatch, hok⟩ hnot
      · simpa using hok
  · show (if (removeMatchedFiles removeOK fs
      (fs.filter (fun g => matchesDbPattern wm.dbDir g))).2.isEmpty
      then none else some _) = none ↔ _
    rw [removeMatchedFiles_errs]
    constructor
    · intro h
      by_cases hemp : ((fs.filter (fun g => matchesDbPattern wm.dbDir g)).filter
          (fun f => !removeOK f)).map (fun f => "failed to remove " ++ f) = []
      · intro f hfs hmatch
        rw [List.map_eq_nil_iff, List.filter_eq_nil_iff] at hemp
        have := hemp f (List.mem_filter.mpr ⟨hfs, hmatch⟩)
        simpa using this
      · rw [if_neg (by simpa [List.isEmpty_iff] using hemp)] at h
        exact Option.noConfusion h
    · intro hall
      rw [if_pos]
      rw [List.isEmpty_iff, List.map_eq_nil_iff, List.filter_eq_nil_iff]
      intro f hmem
      rcases List.mem_filter.mp hmem with ⟨hfs, hmatch⟩
      simp [hall f hfs hmatch]

/-- Counterexample for C3 as stated: a registry with the single live
session A whose storage file exists; CleanupDatabases removes that file
even though it belongs to a currently registered session. -/
theorem c3_live_session_file_removed :
    (goLookup exC3Manager.instances "A").map (fun i => i.database) =
      some exC3File ∧
    (CleanupDatabases exC3Manager [exC3File] (fun _ => true)).1 = [] := by
  refine ⟨?_, ?_⟩ <;> decide

/-!
Behaviour of ConnectClient and the ConnectAllClients fan-out.
-/

/-- Registering the callbacks does not change the connected flag. -/
theorem registeredInst_connected (inst : WhatsAppInstance) :
    (registeredInst inst).connected = inst.connected := by
  unfold registeredInst AddHistorySyncHandlersInst
  by_cases h : inst.downloader.clientInitialized = false <;> simp [h]

/-- Registering the callbacks does not change the stored-identity flag. -/
theorem registeredInst_storeHasID (inst : WhatsAppInstance) :
    (registeredInst inst).storeHasID = inst.storeHasID := by
  unfold registeredInst AddHistorySyncHandlersInst
  by_cases h : inst.downloader.clientInitialized = false <;> simp [h]

/-- setClient makes lookups of the written key return the new instance
(when the key was present). -/
theorem setClient_lookup_same (wm : WhatsAppManager) (id : String)
    (inst : WhatsAppInstance) (h : (goLookup wm.instances id).isSome = true) :
    goLookup (setClient wm id inst).instances id = some inst :=
  goLookup_setEntries_same wm.instances id inst h

/-- setClient leaves lookups of every other key untouched. -/
theorem setClient_lookup_ne (wm : WhatsAppManager) (id j : String)
    (inst : WhatsAppInstance) (h : ¬ j = id) :
    goLookup (setClient wm id inst).instances j = goLookup wm.instances j :=
  goLookup_setEntries_ne wm.instances id j inst h

/-- A successful ConnectClient on a registered, disconnected instance:
returns nil, leaves the instance Connected (through the asynchronous
Connected event), and touches no other registry entry. -/
theorem connectClient_ok (connectOK : String → Bool) (wm : WhatsAppManager)
    (phoneID : String) (inst : WhatsAppInstance)
    (hlk : goLookup wm.instances phoneID = some inst)
    (hdisc : inst.connected = false) (hok : connectOK phoneID = true) :
    ConnectClient connectOK wm phoneID =
      (setClient wm phoneID (connectedEvent (registeredInst inst)), none) := by
  by_cases hsid : (registeredInst inst).storeHasID = false <;>
    simp only [ConnectClient, hlk, hdisc, hok, Bool.false_eq_true,
      if_false, if_true] <;>
    simp [registeredInst, AddHistorySyncHandlersInst] at hsid ⊢

/-- A failed ConnectClient on a registered, disconnected instance: returns
the branch-specific failure message, leaves the instance registered (with
the freshly added callbacks) but not Connected, and touches no other
registry entry. -/
theorem connectClient_fail (connectOK : String → Bool) (wm : WhatsAppManager)
    (phoneID : String) (inst : WhatsAppInstance)
    (hlk : goLookup wm.instances phoneID = some inst)
    (hdisc : inst.connected = false) (hfail : connectOK phoneID = false) :
    ConnectClient connectOK wm phoneID =
      (setClient wm phoneID (registeredInst inst),
        some (connectFailMsg inst phoneID)) := by
  by_cases hsid : inst.storeHasID = false <;>
    simp only [ConnectClient, hlk, hdisc, Bool.false_eq_true, if_false] <;>
    simp [connectFailMsg, hsid, registeredInst, AddHistorySyncHandlersInst] <;>
    by_cases hci : inst.downloader.clientInitialized = false <;>
    simp [hci, hsid, hfail, hdisc]

/-- The per-session failure string only depends on the registry through the
lookup of that session. -/
theorem connectFailMsgFor_congr (wm wm' : WhatsAppManager) (i : String)
    (h : goLookup wm'.instances i = goLookup wm.instances i) :
    connectFailMsgFor wm' i = connectFailMsgFor wm i := by
  unfold connectFailMsgFor
  rw [h]

/-- Contract of the ConnectAllClients fan-out loop over a duplicate-free
snapshot of registered, disconnected phone IDs: entries outside the
snapshot are untouched, every ID whose connect succeeds ends Connected,
every ID whose connect fails stays disconnected (failures abort nothing),
and the collected errors are exactly one per failing ID, in order. -/
theorem connectAllLoop_spec (connectOK : String → Bool) (ids : List String) :
    ∀ wm : WhatsAppManager, ids.Nodup →
    (∀ id ∈ ids, ∃ inst, goLookup wm.instances id = some inst ∧
      inst.connected = false) →
    (∀ j, j ∉ ids →
      goLookup (connectAllLoop connectOK wm ids).1.instances j =
        goLookup wm.instances j) ∧
    (∀ id ∈ ids, connectOK id = true →
      ∃ inst, goLookup (connectAllLoop connectOK wm ids).1.instances id =
        some inst ∧ inst.connected = true) ∧
    (∀ id ∈ ids, connectOK id = false →
      ∃ inst, goLookup (connectAllLoop connectOK wm ids).1.instances id =
        some inst ∧ inst.connected = false) ∧
    (connectAllLoop connectOK wm ids).2 = ids.filterMap
      (fun i => if connectOK i = true then none
        else some (connectFailMsgFor wm i)) := by
  induction ids with
  | nil =>
    intro wm _ _
    exact ⟨fun _ _ => rfl, fun id hid => absurd hid (List.not_mem_nil _),
      fun id hid => absurd hid (List.not_mem_nil _), rfl⟩
  | cons id rest ih =>
    intro wm hnodup hall
    obtain ⟨inst, hlk, hdisc⟩ := hall id (List.mem_cons_self _ _)
    have hidrest : id ∉ rest := (List.nodup_cons.mp hnodup).1
    have hnodup' : rest.Nodup := (List.nodup_cons.mp hnodup).2
    by_cases hok : connectOK id = true
    · have hred := connectClient_ok connectOK wm id inst hlk hdisc hok
      have hloop : connectAllLoop connectOK wm (id :: rest) =
          connectAllLoop connectOK
            (setClient wm id (connectedEvent (registeredInst inst))) rest := by
        simp only [connectAllLoop, hred]
      have hall1 : ∀ i ∈ rest, ∃ inst',
          goLookup (setClient wm id
            (connectedEvent (registeredInst inst))).instances i =
            some inst' ∧ inst'.connected = false := by
        intro i hi
        have hne : ¬ i = id := fun h => hidrest (h ▸ hi)
        rw [setClient_lookup_ne wm id i _ hne]
        exact hall i (List.mem_cons_of_mem _ hi)
      obtain ⟨frameR, okR, failR, errsR⟩ :=
        ih (setClient wm id (connectedEvent (registeredInst inst))) hnodup' hall1
      rw [hloop]
      refine ⟨?_, ?_, ?_, ?_⟩
      · intro j hj
        have hjrest : j ∉ rest := fun h => hj (List.mem_cons_of_mem _ h)
        have hjid : ¬ j = id := fun h => hj (h ▸ List.mem_cons_self _ _)
        rw [frameR j hjrest, setClient_lookup_ne wm id j _ hjid]
      · intro i hi hoki
        rcases List.mem_cons.mp hi with rfl | hi'
        · refine ⟨connectedEvent (registeredInst inst), ?_, rfl⟩
          rw [frameR i hidrest]
          exact setClient_lookup_same wm i _ (by rw [hlk]; rfl)
        · exact okR i hi' hoki
      · intro i hi hfaili
        rcases List.mem_cons.mp hi with rfl | hi'
        · rw [hok] at hfaili
          exact Bool.noConfusion hfaili
        · exact failR i hi' hfaili
      · rw [errsR]
        have hcongr : rest.filterMap
            (fun i => if connectOK i = true then none
              else some (connectFailMsgFor (setClient wm id
                (connectedEvent (registeredInst inst))) i)) =
            rest.filterMap
            (fun i => if connectOK i = true then none
              else some (connectFailMsgFor wm i)) := by
          apply List.filterMap_congr
          intro a ha
          have hne : ¬ a = id := fun h => hidrest (h ▸ ha)
          rw [connectFailMsgFor_congr wm _ a
            (setClient_lookup_ne wm id a _ hne)]
        rw [hcongr]
        simp [List.filterMap_cons, hok]
    · have hfail : connectOK id = false := by simpa using hok
      have hred := connectClient_fail connectOK wm id inst hlk hdisc hfail
      have hloop1 : (connectAllLoop connectOK wm (id :: rest)).1 =
          (connectAllLoop connectOK
            (setClient wm id (registeredInst inst)) rest).1 := by
        simp only [connectAllLoop, hred]
      have hloop2 : (connectAllLoop connectOK wm (id :: rest)).2 =
          ("failed to connect client " ++ id ++ ": " ++
            connectFailMsg inst id) ::
          (connectAllLoop connectOK
            (setClient wm id (registeredInst inst)) rest).2 := by
        simp only [connectAllLoop, hred]
      have hall1 : ∀ i ∈ rest, ∃ inst',
          goLookup (setClient wm id (registeredInst inst)).instances i =
            some inst' ∧ inst'.connected = false := by
        intro i hi
        have hne : ¬ i = id := fun h => hidrest (h ▸ hi)
        rw [setClient_lookup_ne wm id i _ hne]
        exact hall i (List.mem_cons_of_mem _ hi)
      obtain ⟨frameR, okR, failR, errsR⟩ :=
        ih (setClient wm id (registeredInst inst)) hnodup' hall1
      refine ⟨?_, ?_, ?_, ?_⟩
      · intro j hj
        have hjrest : j ∉ rest := fun h => hj (List.mem_cons_of_mem _ h)
        have hjid : ¬ j = id := fun h => hj (h ▸ List.mem_cons_self _ _)
        rw [hloop1, frameR j hjrest, setClient_lookup_ne wm id j _ hjid]
      · intro i hi hoki
        rcases List.mem_cons.mp hi with rfl | hi'
        · rw [hfail] at hoki
          exact Bool.noConfusion hoki
        · rw [hloop1]
          exact okR i hi' hoki
      · intro i hi hfaili
        rcases List.mem_cons.mp hi with rfl | hi'
        · refine ⟨registeredInst inst, ?_, ?_⟩
          · rw [hloop1, frameR i hidrest]
            exact setClient_lookup_same wm i _ (by rw [hlk]; rfl)
          · rw [registeredInst_connected]
            exact hdisc
        · rw [hloop1]
          exact failR i hi' hfaili
      · rw [hloop2, errsR]
        have hcongr : rest.filterMap
            (fun i => if connectOK i = true then none
              else some (connectFailMsgFor (setClient wm id
                (registeredInst inst)) i)) =
            rest.filterMap
            (fun i => if connectOK i = true then none
              else some (connectFailMsgFor wm i)) := by
          apply List.filterMap_congr
          intro a ha
          have hne : ¬ a = id := fun h => hidrest (h ▸ ha)
          rw [connectFailMsgFor_congr wm _ a
            (setClient_lookup_ne wm id a _ hne)]
        rw [hcongr]
        have hmsg : connectFailMsgFor wm id =
            "failed to connect client " ++ id ++ ": " ++
              connectFailMsg inst id := by
          unfold connectFailMsgFor
          rw [hlk]
        simp [List.filterMap_cons, hfail, hmsg]

/-- Claim C7: ConnectAllClients attempts a connect for every registered
session; failures of any subset neither prevent the others from reaching
Connected nor roll back successes, and the call returns nil exactly when
every session connected, otherwise a single error enumerating exactly the
per-session failures. -/
theorem c7_connect_all_fanout (wm : WhatsAppManager) (connectOK : String → Bool)
    (hnodup : (wm.instances.map Prod.fst).Nodup)
    (hdisc : ∀ p ∈ wm.instances, p.2.connected = false) :
    (∀ id ∈ wm.instances.map Prod.fst, connectOK id = true →
      ∃ inst, goLookup (ConnectAllClients connectOK wm).1.instances id =
        some inst ∧ inst.connected = true) ∧
    (∀ id ∈ wm.instances.map Prod.fst, connectOK id = false →
      ∃ inst, goLookup (ConnectAllClients connectOK wm).1.instances id =
        some inst ∧ inst.connected = false) ∧
    ((ConnectAllClients connectOK wm).2 = none ↔
      ∀ id ∈ wm.instances.map Prod.fst, connectOK id = true) ∧
    (connectFailures wm connectOK ≠ [] →
      (ConnectAllClients connectOK wm).2 =
        some ("encountered " ++ toString (connectFailures wm connectOK).length ++
          " errors during connection: " ++
          String.intercalate "; " (connectFailures wm connectOK))) := by
  have hall : ∀ id ∈ wm.instances.map Prod.fst,
      ∃ inst, goLookup wm.instances id = some inst ∧
        inst.connected = false := by
    intro id hid
    obtain ⟨v, hv, hmem⟩ := goLookup_of_mem_keys wm.instances id hid
    exact ⟨v, hv, hdisc (id, v) hmem⟩
  obtain ⟨_, okC, failC, errsC⟩ :=
    connectAllLoop_spec connectOK (wm.instances.map Prod.fst) wm hnodup hall
  have h1 : (ConnectAllClients connectOK wm).1 =
      (connectAllLoop connectOK wm (wm.instances.map Prod.fst)).1 := rfl
  have herrs : (connectAllLoop connectOK wm (wm.instances.map Prod.fst)).2 =
      connectFailures wm connectOK := errsC
  have hfe : connectFailures wm connectOK = [] ↔
      ∀ id ∈ wm.instances.map Prod.fst, connectOK id = true := by
    unfold connectFailures
    rw [List.filterMap_eq_nil_iff]
    constructor
    · intro h id hid
      have := h id hid
      by_cases hoki : connectOK id = true
      · exact hoki
      · rw [if_neg hoki] at this
        exact Option.noConfusion this
    · intro h id hid
      rw [if_pos (h id hid)]
  constructor
  · intro id hid hoki
    rw [h1]
    exact okC id hid hoki
  constructor
  · intro id hid hfaili
    rw [h1]
    exact failC id hid hfaili
  constructor
  · show (if (connectAllLoop connectOK wm
      (wm.instances.map Prod.fst)).2.isEmpty then none else some _) = none ↔ _
    rw [herrs, ← hfe]
    by_cases hemp : connectFailures wm connectOK = []
    · simp [hemp]
    · rw [if_neg (by simpa [List.isEmpty_iff] using hemp)]
      simp [hemp]
  · intro hne
    show (if (connectAllLoop connectOK wm
      (wm.instances.map Prod.fst)).2.isEmpty then none else some _) = some _
    rw [herrs]
    rw [if_neg (by simpa [List.isEmpty_iff] using hne)]

/-- Witness for C7: sessions A and B registered, A's connect succeeds and
B's fails. -/
theorem c7_connect_all_fanout_witness :
    (∀ id ∈ exC7Manager.instances.map Prod.fst, exC7OK id = true →
      ∃ inst, goLookup (ConnectAllClients exC7OK exC7Manager).1.instances id =
        some inst ∧ inst.connected = true) ∧
    (∀ id ∈ exC7Manager.instances.map Prod.fst, exC7OK id = false →
      ∃ inst, goLookup (ConnectAllClients exC7OK exC7Manager).1.instances id =
        some inst ∧ inst.connected = false) ∧
    ((ConnectAllClients exC7OK exC7Manager).2 = none ↔
      ∀ id ∈ exC7Manager.instances.map Prod.fst, exC7OK id = true) ∧
    (connectFailures exC7Manager exC7OK ≠ [] →
      (ConnectAllClients exC7OK exC7Manager).2 =
        some ("encountered " ++
          toString (connectFailures exC7Manager exC7OK).length ++
          " errors during connection: " ++
          String.intercalate "; " (connectFailures exC7Manager exC7OK))) :=
  c7_connect_all_fanout exC7Manager exC7OK (by decide) (by decide)

/-- Claim C10: when AddClient fails after the uniqueness check (device
store creation or device fetch), the registry is unchanged, an error is
returned, and a subsequent GetClient for that name fails with the
not-found error. -/
theorem c10_failed_add_leaves_registry_unchanged (wm : WhatsAppManager)
    (phoneID : String) (now : Int) (storeOK deviceOK deviceHasID : Bool)
    (habs : goLookup wm.instances phoneID = none)
    (hfail : storeOK = false ∨ deviceOK = false) :
    (AddClient wm phoneID now storeOK deviceOK deviceHasID).1 = wm ∧
    (∃ e, (AddClient wm phoneID now storeOK deviceOK deviceHasID).2 =
      Except.error e) ∧
    GetClient (AddClient wm phoneID now storeOK deviceOK deviceHasID).1
      phoneID =
      Except.error ("client with phoneID " ++ phoneID ++ " not found") := by
  have hGet : GetClient wm phoneID =
      Except.error ("client with phoneID " ++ phoneID ++ " not found") := by
    unfold GetClient
    rw [habs]
  have hsome : (goLookup wm.instances phoneID).isSome = false := by
    rw [habs]
    rfl
  have hred : (AddClient wm phoneID now storeOK deviceOK deviceHasID).1 = wm ∧
      ∃ e, (AddClient wm phoneID now storeOK deviceOK deviceHasID).2 =
        Except.error e := by
    rcases hfail with hf | hf
    · subst hf
      exact ⟨by simp [AddClient, hsome],
        "failed to create device store for " ++ phoneID,
        by simp [AddClient, hsome]⟩
    · subst hf
      cases storeOK
      · exact ⟨by simp [AddClient, hsome],
          "failed to create device store for " ++ phoneID,
          by simp [AddClient, hsome]⟩
      · exact ⟨by simp [AddClient, hsome],
          "failed to get device for " ++ phoneID,
          by simp [AddClient, hsome]⟩
  refine ⟨hred.1, hred.2, ?_⟩
  rw [hred.1]
  exact hGet

/-- Witness for C10: adding session A to an empty registry with a failing
device-store creation. -/
theorem c10_failed_add_leaves_registry_unchanged_witness :
    (AddClient (NewWhatsAppManager "./data") "A" 0 false true false).1 =
      NewWhatsAppManager "./data" ∧
    (∃ e, (AddClient (NewWhatsAppManager "./data") "A" 0 false true false).2 =
      Except.error e) ∧
    GetClient
      (AddClient (NewWhatsAppManager "./data") "A" 0 false true false).1 "A" =
      Except.error ("client with phoneID " ++ "A" ++ " not found") :=
  c10_failed_add_leaves_registry_unchanged (NewWhatsAppManager "./data") "A" 0
    false true false rfl (Or.inl rfl)
